import Mathlib

/-!
Verification of the train-schedule preparation scripts.

This file gives a shallow embedding, in Lean, of the coverage-histogram,
schedule-expansion, route-alignment and coordinate-reduction logic of the
repository's Python scripts, and proves (or refutes) the specification
claims about them.

Conventions used throughout:
  * clock times of day are natural numbers counting seconds since midnight
    (a parsed "HH:MM:SS" string becomes HH*3600 + MM*60 + SS);
  * the 24-bucket coverage histogram is a `List Nat` of length 24, exactly
    like the Python `hourly_coverage = [0] * 24` list;
  * geographic coordinates are rational pairs or rational lists; the
    haversine / planar metric of the source is an explicit function
    argument `d` wherever only the control flow around it matters, because
    the trigonometric functions it uses have no executable exact model.
-/

/-! ## Coverage histogram

Embedding of the hour-marking loops of `Mapcheck_coverage.py` (lines 20-39),
`check_minimal_coverage.py` (lines 21-40) and
`Mapultra_optimize_trains.py::ensure_24x7_coverage` (lines 128-148).
All three scripts contain the identical loop:

    if arr_hour <= dep_hour:
        for h in range(dep_hour, 24): hourly_coverage[h] += 1
        for h in range(0, arr_hour + 1): hourly_coverage[h] += 1
    else:
        for h in range(dep_hour, arr_hour + 1): hourly_coverage[h] += 1
-/

/-- One `hourly_coverage[h] += 1` step of the Python marking loop.
Out-of-range indices leave the list unchanged, as `List.set` does. -/
def bumpHour (hist : List ℕ) (h : ℕ) : List ℕ :=
  hist.set h (hist.getD h 0 + 1)

/-- Run `hourly_coverage[h] += 1` over a list of hours (one Python `for` loop). -/
def bumpHours (hist : List ℕ) (hs : List ℕ) : List ℕ :=
  hs.foldl bumpHour hist

/-- Mark the active hours of a single schedule instance with departure hour
`depHour` and arrival hour `arrHour`: the two-loop midnight-wraparound rule of
the source (see module comment). `List.range' a n` is `[a, a+1, ..., a+n-1]`,
so `List.range' depHour (24 - depHour)` is Python `range(dep_hour, 24)`,
`List.range' 0 (arrHour + 1)` is `range(0, arr_hour + 1)` and
`List.range' depHour (arrHour + 1 - depHour)` is `range(dep_hour, arr_hour + 1)`. -/
def addInstanceHours (hist : List ℕ) (depHour arrHour : ℕ) : List ℕ :=
  if arrHour ≤ depHour then
    bumpHours (bumpHours hist (List.range' depHour (24 - depHour))) (List.range' 0 (arrHour + 1))
  else
    bumpHours hist (List.range' depHour (arrHour + 1 - depHour))

/-- The full coverage histogram of a list of `(depHour, arrHour)` instances,
starting from `hourly_coverage = [0] * 24`. -/
def hourlyCoverage (instances : List (ℕ × ℕ)) : List ℕ :=
  instances.foldl (fun hist i => addInstanceHours hist i.1 i.2) (List.replicate 24 0)

/-- Modelled from the spec's marking rule (spec section 4.3 `computeHistogram`
and claim C1): hour `h` belongs to the span of an instance with departure hour
`d` and arrival hour `a` iff it lies in `[d, a]` when `a > d`, and in
`[d, 23] ∪ [0, a]` when `a ≤ d`.  This is the spec-side description the
code's histogram is compared against; `h` ranges over `0..23`. -/
def spanMarked (d a h : ℕ) : Bool :=
  if a ≤ d then decide (d ≤ h) || decide (h ≤ a)
  else decide (d ≤ h) && decide (h ≤ a)

/-- Number of increments bucket `h` (with `h < 24`) receives from a single
instance `(d, a)`.  In the wraparound branch the two ranges both contain `h`
exactly when `h = d = a`, so that bucket is incremented twice. -/
def markCount (d a h : ℕ) : ℕ :=
  if a ≤ d then (if d ≤ h then 1 else 0) + (if h ≤ a then 1 else 0)
  else if d ≤ h ∧ h ≤ a then 1 else 0

theorem length_bumpHour (hist : List ℕ) (h : ℕ) :
    (bumpHour hist h).length = hist.length := by
  simp [bumpHour]

theorem length_bumpHours (hs : List ℕ) (hist : List ℕ) :
    (bumpHours hist hs).length = hist.length := by
  induction hs generalizing hist with
  | nil => rfl
  | cons x xs ih => simp [bumpHours] at ih ⊢; rw [ih, length_bumpHour]

theorem length_addInstanceHours (hist : List ℕ) (d a : ℕ) :
    (addInstanceHours hist d a).length = hist.length := by
  unfold addInstanceHours
  split <;> simp [length_bumpHours]

theorem length_hourlyCoverage (l : List (ℕ × ℕ)) : (hourlyCoverage l).length = 24 := by
  unfold hourlyCoverage
  generalize hbase : List.replicate 24 (0 : ℕ) = base
  have hlen : base.length = 24 := by rw [← hbase]; simp
  clear hbase
  induction l generalizing base with
  | nil => simpa using hlen
  | cons x xs ih => simpa [length_addInstanceHours] using ih _ (by rw [length_addInstanceHours]; exact hlen)

theorem getD_bumpHour (hist : List ℕ) (i k : ℕ) :
    (bumpHour hist i).getD k 0 =
      hist.getD k 0 + (if i = k ∧ k < hist.length then 1 else 0) := by
  unfold bumpHour
  by_cases hk : k < hist.length
  · rw [List.getD_eq_getElem _ _ (by simpa using hk), List.getD_eq_getElem _ _ hk,
      List.getElem_set]
    by_cases hik : i = k
    · subst hik
      simp [hk, List.getD_eq_getElem _ _ hk]
    · simp [hik, hk]
  · rw [List.getD_eq_default _ _ (by simpa using Nat.le_of_not_lt hk),
      List.getD_eq_default _ _ (Nat.le_of_not_lt hk)]
    simp [hk]

theorem getD_bumpHours (hs : List ℕ) (hist : List ℕ) (k : ℕ) (hk : k < hist.length) :
    (bumpHours hist hs).getD k 0 = hist.getD k 0 + hs.count k := by
  induction hs generalizing hist with
  | nil => simp [bumpHours]
  | cons x xs ih =>
    have hk1 : k < (bumpHour hist x).length := by rw [length_bumpHour]; exact hk
    have := ih (bumpHour hist x) hk1
    simp only [bumpHours, List.foldl_cons] at this ⊢
    rw [this, getD_bumpHour]
    simp only [hk, and_true]
    rw [List.count_cons]
    by_cases hx : x = k
    · subst hx; simp [Nat.add_assoc, Nat.add_comm]
    · simp [hx, Ne.symm hx]

theorem count_range' (s n k : ℕ) :
    (List.range' s n).count k = if s ≤ k ∧ k < s + n then 1 else 0 := by
  induction n generalizing s with
  | zero =>
    have h0 : ¬ (s ≤ k ∧ k < s) := by omega
    simp [h0]
  | succ m ih =>
    rw [List.range'_succ, List.count_cons, ih (s + 1)]
    by_cases hs : s = k
    · subst hs
      simp only [beq_self_eq_true, if_true]
      split <;> split <;> omega
    · have hbeq : (s == k) = false := by simpa using hs
      simp only [hbeq, Bool.false_eq_true, if_false, Nat.add_zero]
      split <;> split <;> omega

theorem getD_addInstanceHours (hist : List ℕ) (d a k : ℕ)
    (hlen : hist.length = 24) (hk : k < 24) :
    (addInstanceHours hist d a).getD k 0 = hist.getD k 0 + markCount d a k := by
  have hk' : k < hist.length := by omega
  unfold addInstanceHours markCount
  by_cases hda : a ≤ d
  · simp only [hda, if_true]
    rw [getD_bumpHours _ _ _ (by rw [length_bumpHours]; exact hk'),
      getD_bumpHours _ _ _ hk', count_range', count_range']
    have h1 : (d ≤ k ∧ k < d + (24 - d)) ↔ d ≤ k := by omega
    have h2 : (0 ≤ k ∧ k < 0 + (a + 1)) ↔ k ≤ a := by omega
    simp only [h1, h2]
    split <;> split <;> omega
  · simp only [hda, if_false]
    rw [getD_bumpHours _ _ _ hk', count_range']
    have : (d ≤ k ∧ k < d + (a + 1 - d)) ↔ (d ≤ k ∧ k ≤ a) := by omega
    rw [if_congr this rfl rfl]

theorem getD_hourlyCoverage_aux (l : List (ℕ × ℕ)) (hist : List ℕ) (k : ℕ)
    (hlen : hist.length = 24) (hk : k < 24) :
    (l.foldl (fun h i => addInstanceHours h i.1 i.2) hist).getD k 0 =
      hist.getD k 0 + (l.map (fun i => markCount i.1 i.2 k)).sum := by
  induction l generalizing hist with
  | nil => simp
  | cons x xs ih =>
    simp only [List.foldl_cons, List.map_cons, List.sum_cons]
    rw [ih _ (by rw [length_addInstanceHours]; exact hlen),
      getD_addInstanceHours _ _ _ _ hlen hk]
    omega

/-- Master description of the histogram: bucket `k` (for `k < 24`) is the sum
over all instances of the per-instance increment count. -/
theorem getD_hourlyCoverage (l : List (ℕ × ℕ)) (k : ℕ) (hk : k < 24) :
    (hourlyCoverage l).getD k 0 = (l.map (fun i => markCount i.1 i.2 k)).sum := by
  unfold hourlyCoverage
  rw [getD_hourlyCoverage_aux _ _ _ (by simp) hk]
  have : (List.replicate 24 (0 : ℕ)).getD k 0 = 0 := by
    rw [List.getD_eq_getElem _ _ (by simpa using hk)]
    exact List.getElem_replicate _ (h := by simpa using hk)
  rw [this, Nat.zero_add]

theorem getD_hourlyCoverage_of_ge (l : List (ℕ × ℕ)) (k : ℕ) (hk : 24 ≤ k) :
    (hourlyCoverage l).getD k 0 = 0 :=
  List.getD_eq_default _ _ (by rw [length_hourlyCoverage]; exact hk)

/-! ## Time parsing and schedule expansion

Embedding of `parse_time` (identical in `create_always_running.py` 55-61,
`Mapcreate_minimal_trains.py` 94-98, `optimize_trains.py` 82-86 and
`Mapultra_optimize_trains.py` 80-84) and of
`Mapcreate_minimal_trains.py::create_minimal_timing_strategy` (90-133).
`datetime.strptime(s, "%H:%M:%S")` accepts three colon-separated fields of
one or two digits each, with hour below 24, minute below 60 and second below
60 (seconds 60 and 61 match the `%S` pattern but are rejected by the `time`
constructor, which the enclosing `except` also turns into a parse failure).
String splitting is modelled by structural recursion on the character list
because the claim theorems evaluate it on concrete inputs. -/

/-- Split a character list at every colon (model of splitting the time string
into its "HH", "MM", "SS" fields). -/
def splitOnColon (cs : List Char) : List (List Char) :=
  match cs with
  | [] => [[]]
  | c :: rest =>
    let r := splitOnColon rest
    if c = ':' then [] :: r
    else
      match r with
      | f :: more => (c :: f) :: more
      | [] => [[c]]

/-- Numeric value of a decimal digit character, `none` otherwise. -/
def charDigit? (c : Char) : Option ℕ :=
  if c.isDigit then some (c.toNat - 48) else none

/-- Value of a one- or two-digit field, as matched by `%H`, `%M` and `%S`. -/
def fieldVal? (cs : List Char) : Option ℕ :=
  match cs with
  | [d] => charDigit? d
  | [d1, d2] =>
    match charDigit? d1, charDigit? d2 with
    | some a, some b => some (a * 10 + b)
    | _, _ => none
  | _ => none

/-- Model of `datetime.strptime(time_str, "%H:%M:%S").time()` as seconds since
midnight, `none` when parsing fails. -/
def strptimeHMS (s : String) : Option ℕ :=
  match splitOnColon s.toList with
  | [hh, mm, ss] =>
    match fieldVal? hh, fieldVal? mm, fieldVal? ss with
    | some h, some m, some sec =>
      if h ≤ 23 ∧ m ≤ 59 ∧ sec ≤ 59 then some (h * 3600 + m * 60 + sec) else none
    | _, _, _ => none
  | _ => none

/-- The scripts' `parse_time`: try `strptime`, fall back to `06:00:00`
(21600 seconds) on any parse failure. -/
def parse_time (time_str : String) : ℕ :=
  match strptimeHMS time_str with
  | some t => t
  | none => 6 * 3600

/-- Journey duration in seconds: `arr_dt - dep_dt`, adding one day first when
`arr_dt <= dep_dt` (the midnight-spanning rule of the expansion functions). -/
def tripDuration (dep arr : ℕ) : ℕ :=
  if arr ≤ dep then arr + 86400 - dep else arr - dep

/-- One expanded schedule instance: departure/arrival seconds-of-day (already
wrapped into `[0, 86400)` as `strftime` of a `datetime.time` does) and the
1-based ordinal id. -/
structure Schedule where
  departure : ℕ
  arrival : ℕ
  schedule_id : ℕ
deriving DecidableEq, Repr

/-- The expansion loop shared by the timing-strategy functions: for the i-th
hour offset `o`, departure is `(base + o hours) mod 24h` and arrival is that
unwrapped departure plus the unwrapped duration, wrapped for display. -/
def expandIntervals (dep duration : ℕ) (intervals : List ℕ) : List Schedule :=
  intervals.enum.map (fun io =>
    { departure := (dep + io.2 * 3600) % 86400
      arrival := (dep + io.2 * 3600 + duration) % 86400
      schedule_id := io.1 + 1 })

/-- Hour-offset tiers of `create_minimal_timing_strategy` (lines 114-121). -/
def minimalIntervals (efficiency_level : String) : List ℕ :=
  if efficiency_level = "maximum" then [0, 4, 8, 12, 16, 20]
  else if efficiency_level = "high" then [0, 6, 12, 18]
  else if efficiency_level = "medium" then [0, 8, 16]
  else [0, 12]

/-- The whole of `create_minimal_timing_strategy(base_departure, base_arrival,
efficiency_level)`. -/
def create_minimal_timing_strategy (base_departure base_arrival efficiency_level : String) :
    List Schedule :=
  let dep := parse_time base_departure
  let arr := parse_time base_arrival
  expandIntervals dep (tripDuration dep arr) (minimalIntervals efficiency_level)

/-- Departure and arrival clock hours of an expanded schedule, as the coverage
checkers recover them by re-parsing the displayed "HH:MM:SS" strings. -/
def scheduleHours (s : Schedule) : ℕ × ℕ :=
  (s.departure % 86400 / 3600, s.arrival % 86400 / 3600)

/-! ## Claims about the coverage histogram and schedule expansion -/

/-- C1: for one schedule instance with departure hour `d` and arrival hour `a`
(both valid clock hours), the histogram computation marks bucket `h` (leaves a
positive count there) exactly when `h` lies in `[d, a]` for `a > d`, and in
`[d, 23] ∪ [0, a]` for `a ≤ d` (the span wraps at midnight as two ranges);
in particular for departure hour 23 and arrival hour 2 exactly the buckets
23, 0, 1 and 2 are marked. -/
theorem histogram_marks_span_iff (d a h : ℕ) (hd : d < 24) (ha : a < 24) (hh : h < 24) :
    0 < (hourlyCoverage [(d, a)]).getD h 0 ↔ spanMarked d a h = true := by
  rw [getD_hourlyCoverage _ _ hh]
  simp only [List.map_cons, List.map_nil, List.sum_cons, List.sum_nil, Nat.add_zero]
  by_cases h3 : a ≤ d <;> by_cases h1 : d ≤ h <;> by_cases h2 : h ≤ a <;>
    simp [markCount, spanMarked, h1, h2, h3]

/-- Witness for `histogram_marks_span_iff` at the claim's own example: the
trip departing at hour 23 and arriving at hour 2 marks hour 1. -/
theorem histogram_marks_span_iff_witness :
    0 < (hourlyCoverage [(23, 2)]).getD 1 0 ↔ spanMarked 23 2 1 = true :=
  histogram_marks_span_iff 23 2 1 (by decide) (by decide) (by decide)

/-- C2 counterexample: the claim that a departure-08:00 arrival-08:00 instance
marks exactly hour 8 and no other hour is false: since `arr_hour <= dep_hour`
the code takes the midnight-wraparound branch and marks hours `8..23` and
`0..8`, i.e. every bucket of the histogram. -/
theorem degenerate_trip_counterexample :
    ¬ (∀ h : ℕ, h < 24 → (hourlyCoverage [(8, 8)]).getD h 0 = if h = 8 then 1 else 0) := by
  decide

/-- C2 amended: a departure-08:00 arrival-08:00 instance is treated as a
midnight-spanning (full-day) trip: every one of the 24 buckets is marked, and
bucket 8 is incremented twice (once by the `[8, 23]` range and once by the
`[0, 8]` range). -/
theorem degenerate_trip_marks_every_hour :
    hourlyCoverage [(8, 8)] =
      [1, 1, 1, 1, 1, 1, 1, 1, 2, 1, 1, 1, 1, 1, 1, 1, 1, 1, 1, 1, 1, 1, 1, 1] := by
  decide

/-- C3: expanding the base trip 06:00:00 -> 18:00:00 under the `medium` tier
(hour offsets 0, 8, 16) yields exactly the instances 06:00->18:00 (id 1),
14:00->02:00 (id 2) and 22:00->10:00 (id 3), each departure being
`(base departure + offset) mod 24h` and each arrival that departure plus the
12-hour base duration in unwrapped time; the coverage histogram of these three
instances alone is `[2,2,2,1,1,1,2,2,2,2,2,1,1,1,2,2,2,2,2,1,1,1,2,2]`, so
every one of the 24 buckets is at least 1. -/
theorem medium_tier_expansion_covers_all_hours :
    create_minimal_timing_strategy "06:00:00" "18:00:00" "medium" =
      [⟨21600, 64800, 1⟩, ⟨50400, 7200, 2⟩, ⟨79200, 36000, 3⟩] ∧
    hourlyCoverage ((create_minimal_timing_strategy "06:00:00" "18:00:00" "medium").map
        scheduleHours) =
      [2, 2, 2, 1, 1, 1, 2, 2, 2, 2, 2, 1, 1, 1, 2, 2, 2, 2, 2, 1, 1, 1, 2, 2] := by
  constructor
  · decide
  · decide

/-- C7: the coverage histogram over a concatenation of two instance lists is
the bucket-wise sum of the two histograms (computing the histogram for the
union of two disjoint instance sets equals summing the parts). -/
theorem histogram_additive (A B : List (ℕ × ℕ)) (h : ℕ) :
    (hourlyCoverage (A ++ B)).getD h 0 =
      (hourlyCoverage A).getD h 0 + (hourlyCoverage B).getD h 0 := by
  by_cases hh : h < 24
  · rw [getD_hourlyCoverage _ _ hh, getD_hourlyCoverage _ _ hh, getD_hourlyCoverage _ _ hh,
      List.map_append, List.sum_append]
  · rw [getD_hourlyCoverage_of_ge _ _ (Nat.le_of_not_lt hh),
      getD_hourlyCoverage_of_ge _ _ (Nat.le_of_not_lt hh),
      getD_hourlyCoverage_of_ge _ _ (Nat.le_of_not_lt hh)]

/-- C9: if the base departure string does not parse as HH:MM:SS, schedule
expansion substitutes the documented default 06:00:00 (so the expansion equals
the one for the literal string "06:00:00"); a parseable departure string is
used unchanged. The arrival string goes through the identical `parse_time`,
so the same holds for it by symmetry of the definition. -/
theorem parse_time_default_on_failure (s arr lvl : String) :
    (strptimeHMS s = none →
      create_minimal_timing_strategy s arr lvl =
        create_minimal_timing_strategy "06:00:00" arr lvl) ∧
    (∀ t, strptimeHMS s = some t →
      create_minimal_timing_strategy s arr lvl =
        expandIntervals t (tripDuration t (parse_time arr)) (minimalIntervals lvl)) := by
  constructor
  · intro hnone
    have h6 : parse_time "06:00:00" = 21600 := by decide
    unfold create_minimal_timing_strategy
    rw [show parse_time s = 21600 from by unfold parse_time; rw [hnone], h6]
  · intro t ht
    unfold create_minimal_timing_strategy
    rw [show parse_time s = t from by unfold parse_time; rw [ht]]

/-- Witness for `parse_time_default_on_failure`: the unparseable departure
string "banana" expands exactly like the default "06:00:00", and the
parseable "23:15:00" is used unchanged. -/
theorem parse_time_default_on_failure_witness :
    create_minimal_timing_strategy "banana" "18:00:00" "medium" =
      create_minimal_timing_strategy "06:00:00" "18:00:00" "medium" ∧
    create_minimal_timing_strategy "23:15:00" "18:00:00" "medium" =
      expandIntervals (23 * 3600 + 15 * 60)
        (tripDuration (23 * 3600 + 15 * 60) (parse_time "18:00:00"))
        (minimalIntervals "medium") :=
  ⟨(parse_time_default_on_failure "banana" "18:00:00" "medium").1 (by decide),
   (parse_time_default_on_failure "23:15:00" "18:00:00" "medium").2 _ (by decide)⟩

/-! ## Route alignment

Embeddings of the snapping code. Geographic metrics: the planar
point-to-segment distance of `fix_train_alignment.py::distance_point_to_line`
is rational except for its final `math.sqrt`; since the function's result is
only ever compared (`distance < min_distance`) and `sqrt` is strictly
monotone on non-negative numbers, the embedding tracks the squared distance,
which preserves every comparison. The haversine distance of
`fix_alignment.py` / `fix_train_routes.py` is trigonometric, so the functions
that consume it take the metric as an explicit argument `d`; the claims they
settle are about the control flow around `d` and hold for every metric.
`planarDistSq` below is the concrete rational metric used by witnesses. -/

/-- Squared form of `distance_point_to_line(point, line_start, line_end)` of
`fix_train_alignment.py` (lines 11-32): planar projection with the parameter
`t` clamped to `[0,1]`. Pairs are `(x, y)` = `(lon, lat)` as in the source. -/
def distSqPointToLine (p ls le : ℚ × ℚ) : ℚ :=
  let lineLengthSquared := (le.1 - ls.1) ^ 2 + (le.2 - ls.2) ^ 2
  if lineLengthSquared = 0 then (p.1 - ls.1) ^ 2 + (p.2 - ls.2) ^ 2
  else
    let t := max 0 (min 1 (((p.1 - ls.1) * (le.1 - ls.1) + (p.2 - ls.2) * (le.2 - ls.2)) /
      lineLengthSquared))
    (p.1 - (ls.1 + t * (le.1 - ls.1))) ^ 2 + (p.2 - (ls.2 + t * (le.2 - ls.2))) ^ 2

/-- The closest point on a segment, as recomputed inside the update branch of
`find_nearest_railway_point` (lines 53-62): the degenerate segment returns its
start point, otherwise the clamped projection. -/
def projOntoSeg (p ls le : ℚ × ℚ) : ℚ × ℚ :=
  let lineLengthSquared := (le.1 - ls.1) ^ 2 + (le.2 - ls.2) ^ 2
  if lineLengthSquared = 0 then ls
  else
    let t := max 0 (min 1 (((p.1 - ls.1) * (le.1 - ls.1) + (p.2 - ls.2) * (le.2 - ls.2)) /
      lineLengthSquared))
    (ls.1 + t * (le.1 - ls.1), ls.2 + t * (le.2 - ls.2))

/-- Consecutive coordinate pairs of one line (`for i in range(len(line_coords) - 1)`). -/
def segPairs (line : List (ℚ × ℚ)) : List ((ℚ × ℚ) × (ℚ × ℚ)) :=
  line.zip line.tail

/-- One iteration of the minimum-tracking loop of
`fix_train_alignment.py::find_nearest_railway_point`: state is
`(min_distance, best_point)` with `none` for the initial `float('inf')`. -/
def fnrpStep (p : ℚ × ℚ) (st : Option ℚ × (ℚ × ℚ)) (seg : (ℚ × ℚ) × (ℚ × ℚ)) :
    Option ℚ × (ℚ × ℚ) :=
  let dsq := distSqPointToLine p seg.1 seg.2
  match st.1 with
  | none => (some dsq, projOntoSeg p seg.1 seg.2)
  | some m => if dsq < m then (some dsq, projOntoSeg p seg.1 seg.2) else st

/-- `find_nearest_railway_point(train_point, railway_lines)` of
`fix_train_alignment.py` (lines 34-64): scans every segment of every
MultiLineString line and returns the projection onto the globally nearest
segment; the original point comes back only when there are no segments at
all.  Note: this function has NO search radius. -/
def find_nearest_railway_point (train_point : ℚ × ℚ) (railway_lines : List (List (ℚ × ℚ))) :
    ℚ × ℚ :=
  (railway_lines.foldl (fun st line => (segPairs line).foldl (fnrpStep train_point) st)
    ((none : Option ℚ), train_point)).2

/-- Squared planar distance between two points (used to measure how far a
snapped output lies from its input). -/
def pointDistSq (p q : ℚ × ℚ) : ℚ :=
  (p.1 - q.1) ^ 2 + (p.2 - q.2) ^ 2

/-- One iteration of the nearest-vertex loop shared by
`fix_alignment.py::find_nearest_railway_point` (lines 47-61) and
`fix_train_routes.py::find_nearest_track_point` (lines 64-75), which are the
same algorithm: keep `(nearest_point, min_dist)`, accepting a candidate when
`dist < min_dist and dist <= max_distance_km`; `none` is the initial
`(None, float('inf'))`. `d` is the haversine metric, called as
`d target_lat target_lng point_lat point_lng`. -/
def fntpStep (d : ℚ → ℚ → ℚ → ℚ → ℚ) (lat lon maxd : ℚ)
    (st : Option (ℚ × ℚ) × Option ℚ) (point : ℚ × ℚ) : Option (ℚ × ℚ) × Option ℚ :=
  let dist := d lat lon point.1 point.2
  match st.2 with
  | none => if dist ≤ maxd then (some point, some dist) else st
  | some m => if dist < m ∧ dist ≤ maxd then (some point, some dist) else st

/-- The bounded nearest-vertex search of `fix_alignment.py` and
`fix_train_routes.py`: track points are `(lat, lon)` pairs. -/
def find_nearest_track_point (d : ℚ → ℚ → ℚ → ℚ → ℚ) (lat lon : ℚ)
    (track_points : List (ℚ × ℚ)) (max_distance_km : ℚ) : Option (ℚ × ℚ) × Option ℚ :=
  track_points.foldl (fntpStep d lat lon max_distance_km) (none, none)

/-- Per-coordinate body of the alignment loop of
`fix_alignment.py::align_train_routes` (lines 94-106): search radius 5 km,
snap threshold 2 km, coordinates are `[lng, lat, ...]` lists and railway
points `(lat, lng)` pairs; a snapped output is `[nearest_lng, nearest_lat]`.
Coordinates with fewer than two entries are skipped by the enclosing loop. -/
def align_coord (d : ℚ → ℚ → ℚ → ℚ → ℚ) (railway_points : List (ℚ × ℚ))
    (coord : List ℚ) : List ℚ :=
  match coord with
  | lng :: lat :: _ =>
    match find_nearest_track_point d lat lng railway_points 5 with
    | (some nearest, some dist) => if dist < 2 then [nearest.2, nearest.1] else coord
    | _ => coord
  | _ => coord

/-- Per-coordinate body of `fix_train_routes.py::snap_route_to_tracks`
(lines 77-102): search radius 20 km, snap whenever any track point is found
within it (no further threshold). -/
def snapTrackCoord (d : ℚ → ℚ → ℚ → ℚ → ℚ) (track_points : List (ℚ × ℚ))
    (coord : List ℚ) : List ℚ :=
  match coord with
  | lon :: lat :: _ =>
    match find_nearest_track_point d lat lon track_points 20 with
    | (some nt, _) => [nt.2, nt.1]
    | (none, _) => coord
  | _ => coord

/-- `snap_route_to_tracks(route_coordinates, track_points)`: the appending
loop, written as structural recursion; coordinates with fewer than two
entries are dropped (the loop body only appends under `len(coord) >= 2`). -/
def snap_route_to_tracks (d : ℚ → ℚ → ℚ → ℚ → ℚ) (track_points : List (ℚ × ℚ)) :
    List (List ℚ) → List (List ℚ)
  | [] => []
  | coord :: rest =>
    match coord with
    | lon :: lat :: more =>
      snapTrackCoord d track_points (lon :: lat :: more) ::
        snap_route_to_tracks d track_points rest
    | _ => snap_route_to_tracks d track_points rest

/-- `create_realistic_intermediate_points(start_coord, end_coord, track_points,
num_points)` of `fix_train_routes.py` (lines 104-137). `sp` stands for the
map `ratio ↦ math.sin(ratio * math.pi)` (the only transcendental step);
`0.3` and `0.1` are the rationals `3/10` and `1/10`. Returns `[]` when either
endpoint has fewer than two entries, like the source's guard. -/
def create_realistic_intermediate_points (sp : ℚ → ℚ) (d : ℚ → ℚ → ℚ → ℚ → ℚ)
    (start_coord end_coord : List ℚ) (track_points : List (ℚ × ℚ)) (num_points : ℕ) :
    List (List ℚ) :=
  match start_coord, end_coord with
  | slon :: slat :: _, elon :: elat :: _ =>
    (List.range num_points).map (fun j =>
      let ratio : ℚ := (j + 1 : ℕ) / ((num_points : ℚ) + 1)
      let interpLat := slat + ratio * (elat - slat)
      let interpLon := slon + ratio * (elon - slon)
      let curveFactor := 3 / 10 * sp ratio
      let iLat := interpLat + curveFactor * (elat - slat) * (1 / 10)
      let iLon := interpLon + curveFactor * (elon - slon) * (1 / 10)
      match find_nearest_track_point d iLat iLon track_points 15 with
      | (some nt, _) => [nt.2, nt.1]
      | (none, _) => [iLon, iLat])
  | _, _ => []

/-- Per-route body of `fix_train_routes.py::fix_train_routes` (lines 167-200):
routes of fewer than 2 points are left untouched (`continue`); sparse routes
(2 to 7 points) are rebuilt as start + 6 synthesized intermediates + end and
then snapped; longer routes are snapped in place. -/
def fix_route (sp : ℚ → ℚ) (d : ℚ → ℚ → ℚ → ℚ → ℚ) (track_points : List (ℚ × ℚ))
    (route_coords : List (List ℚ)) : List (List ℚ) :=
  if route_coords.length < 2 then route_coords
  else if route_coords.length < 8 then
    let start_coord := route_coords.headD []
    let end_coord := route_coords.getLastD []
    let intermediate :=
      create_realistic_intermediate_points sp d start_coord end_coord track_points 6
    snap_route_to_tracks d track_points (start_coord :: (intermediate ++ [end_coord]))
  else snap_route_to_tracks d track_points route_coords

/-- Concrete rational stand-in metric (squared planar distance on
`(lat, lng)` arguments) used to instantiate `d` in witnesses. -/
def planarDistSq (lat1 lng1 lat2 lng2 : ℚ) : ℚ :=
  (lat1 - lat2) ^ 2 + (lng1 - lng2) ^ 2

/-- Per-coordinate body of the alignment loop of
`fix_train_alignment.py::create_railway_aligned_routes` (lines 100-106):
the coordinate is replaced by `find_nearest_railway_point` of it.  The
source unpacks `lon, lat = train_point`, so the body is only defined for
coordinates with exactly two entries (a longer list would raise ValueError
there); the fallback branch keeps the coordinate and is never reached on
the two-entry points the theorems quantify over. -/
def alignRailwayCoord (railway_lines : List (List (ℚ × ℚ))) (coord : List ℚ) : List ℚ :=
  match coord with
  | [lon, lat] =>
    let p := find_nearest_railway_point (lon, lat) railway_lines
    [p.1, p.2]
  | _ => coord

/-- The whole per-point loop of `create_railway_aligned_routes`
(lines 100-106): append the aligned point for each coordinate, skipping
those that fail the `len(coord) >= 2` guard. -/
def create_railway_aligned_coords (railway_lines : List (List (ℚ × ℚ))) :
    List (List ℚ) → List (List ℚ)
  | [] => []
  | coord :: rest =>
    match coord with
    | [lon, lat] =>
      alignRailwayCoord railway_lines [lon, lat] ::
        create_railway_aligned_coords railway_lines rest
    | _ => create_railway_aligned_coords railway_lines rest

/-! ## Properties of the nearest-vertex search and the aligners -/

theorem fntp_fold_spec (d : ℚ → ℚ → ℚ → ℚ → ℚ) (lat lon maxd : ℚ) (pts : List (ℚ × ℚ)) :
    ∀ (st : Option (ℚ × ℚ) × Option ℚ) (np : ℚ × ℚ) (dd : ℚ),
      pts.foldl (fntpStep d lat lon maxd) st = (some np, some dd) →
      st = (some np, some dd) ∨ (np ∈ pts ∧ dd = d lat lon np.1 np.2 ∧ dd ≤ maxd) := by
  induction pts with
  | nil => intro st np dd h; exact Or.inl h
  | cons p rest ih =>
    intro st np dd h
    simp only [List.foldl_cons] at h
    rcases ih (fntpStep d lat lon maxd st p) np dd h with h1 | h2
    · rcases st with ⟨st1, st2⟩
      cases st2 with
      | none =>
        simp only [fntpStep] at h1
        split at h1
        · rename_i hcond
          rcases h1 with ⟨h1a, h1b⟩
          exact Or.inr ⟨List.mem_cons_self p rest, rfl, hcond⟩
        · exfalso
          have hsnd := congrArg Prod.snd h1
          simp at hsnd
      | some m =>
        simp only [fntpStep] at h1
        split at h1
        · rename_i hcond
          rcases h1 with ⟨h1a, h1b⟩
          exact Or.inr ⟨List.mem_cons_self p rest, rfl, hcond.2⟩
        · exact Or.inl h1
    · exact Or.inr ⟨List.mem_cons_of_mem _ h2.1, h2.2⟩

/-- A successful bounded nearest-vertex search returns a vertex of the
network, together with its true distance under the metric, within the search
radius. -/
theorem find_nearest_track_point_mem (d : ℚ → ℚ → ℚ → ℚ → ℚ) (lat lon maxd : ℚ)
    (pts : List (ℚ × ℚ)) (np : ℚ × ℚ) (dd : ℚ)
    (h : find_nearest_track_point d lat lon pts maxd = (some np, some dd)) :
    np ∈ pts ∧ dd = d lat lon np.1 np.2 ∧ dd ≤ maxd := by
  rcases fntp_fold_spec d lat lon maxd pts (none, none) np dd h with h1 | h2
  · exact absurd h1 (by simp)
  · exact h2

/-- C4 counterexample: `fix_train_alignment.py::find_nearest_railway_point`
has no search radius.  For the input point `(100, 0)` (planar lon/lat
degrees) and a network consisting of the single segment from `(0, 0)` to
`(0, 1)`, it returns the snapped point `(0, 0)`, which differs from the input
and lies at squared planar distance 10000 from it — 100 degrees, about
11000 km, while every radius configured anywhere in the repository is at
most 20 km (squared: 400, in any unit reading).  So a snapped point farther
away than the configured radius IS produced, refuting the claim for this
aligner. -/
theorem snap_beyond_radius_counterexample :
    find_nearest_railway_point (100, 0) [[(0, 0), (0, 1)]] = (0, 0) ∧
    ((0 : ℚ), (0 : ℚ)) ≠ ((100 : ℚ), (0 : ℚ)) ∧
    400 < pointDistSq (100, 0) (0, 0) := by
  refine ⟨?_, ?_, ?_⟩
  · norm_num [find_nearest_railway_point, fnrpStep, segPairs, distSqPointToLine, projOntoSeg]
  · intro h
    have hfst := congrArg Prod.fst h
    norm_num at hfst
  · norm_num [pointDistSq]

/-- C4 amended, for the radius-respecting aligner
`fix_alignment.py::align_train_routes`: every aligned point is either the
unmodified input coordinate, or a railway-network vertex whose distance from
the input under the metric `d` is below the 2 km snap threshold; no snapped
output beyond the threshold is ever produced by this aligner.  (The metric is
universally quantified: the property is pure control flow.) -/
theorem align_respects_snap_threshold (d : ℚ → ℚ → ℚ → ℚ → ℚ) (pts : List (ℚ × ℚ))
    (coord : List ℚ) (hlen : 2 ≤ coord.length) :
    align_coord d pts coord = coord ∨
      ∃ np, np ∈ pts ∧ align_coord d pts coord = [np.2, np.1] ∧
        d (coord.getD 1 0) (coord.getD 0 0) np.1 np.2 < 2 := by
  match coord, hlen with
  | lng :: lat :: rest, _ =>
    rcases hfind : find_nearest_track_point d lat lng pts 5 with ⟨o1, o2⟩
    cases o1 with
    | none => left; simp [align_coord, hfind]
    | some np =>
      cases o2 with
      | none => left; simp [align_coord, hfind]
      | some dist =>
        by_cases hd2 : dist < 2
        · right
          obtain ⟨hmem, hdist, _⟩ := find_nearest_track_point_mem d lat lng 5 pts np dist hfind
          refine ⟨np, hmem, ?_, ?_⟩
          · simp [align_coord, hfind, hd2]
          · show d ((lng :: lat :: rest).getD 1 0) ((lng :: lat :: rest).getD 0 0) np.1 np.2 < 2
            simpa [List.getD] using hdist ▸ hd2
        · left; simp [align_coord, hfind, hd2]

/-- Witness for `align_respects_snap_threshold`: a point whose only candidate
vertex lies outside the 5 km search radius is kept unchanged. -/
theorem align_respects_snap_threshold_witness :
    align_coord planarDistSq [(0, 0)] [3, 4] = [3, 4] ∨
      ∃ np, np ∈ [((0 : ℚ), (0 : ℚ))] ∧
        align_coord planarDistSq [(0, 0)] [3, 4] = [np.2, np.1] ∧
        planarDistSq (([3, 4] : List ℚ).getD 1 0) (([3, 4] : List ℚ).getD 0 0) np.1 np.2 < 2 :=
  align_respects_snap_threshold planarDistSq [(0, 0)] [3, 4] (by decide)

/-! ## Shape of snapping and densification -/

theorem headD_mem_self {α : Type} (l : List α) (h : l ≠ []) (dflt : α) : l.headD dflt ∈ l := by
  cases l with
  | nil => exact absurd rfl h
  | cons a t => simp

theorem getLastD_mem_self {α : Type} (l : List α) (h : l ≠ []) (dflt : α) :
    l.getLastD dflt ∈ l := by
  induction l generalizing dflt with
  | nil => exact absurd rfl h
  | cons a t ih =>
    rw [List.getLastD_cons]
    cases t with
    | nil => simp
    | cons b u => exact List.mem_cons_of_mem _ (ih (by simp) _)

/-- The snapping loop is a pointwise map whenever every coordinate is
well-formed (has at least two entries, i.e. is a genuine GeoPoint). -/
theorem snap_route_eq_map (d : ℚ → ℚ → ℚ → ℚ → ℚ) (pts : List (ℚ × ℚ))
    (route : List (List ℚ)) (hwf : ∀ c ∈ route, 2 ≤ c.length) :
    snap_route_to_tracks d pts route = route.map (snapTrackCoord d pts) := by
  induction route with
  | nil => rfl
  | cons c rest ih =>
    have hc := hwf c (List.mem_cons_self c rest)
    cases c with
    | nil => exact absurd hc (by simp)
    | cons lon tl =>
      cases tl with
      | nil => exact absurd hc (by simp)
      | cons lat more =>
        show snapTrackCoord d pts (lon :: lat :: more) :: snap_route_to_tracks d pts rest = _
        rw [List.map_cons, ih (fun x hx => hwf x (List.mem_cons_of_mem _ hx))]

/-- Every synthesized intermediate point is a two-entry `[lon, lat]` list. -/
theorem create_realistic_wellformed (sp : ℚ → ℚ) (d : ℚ → ℚ → ℚ → ℚ → ℚ)
    (s e : List ℚ) (pts : List (ℚ × ℚ)) (n : ℕ) :
    ∀ c ∈ create_realistic_intermediate_points sp d s e pts n, c.length = 2 := by
  intro c hc
  cases s with
  | nil => simp [create_realistic_intermediate_points] at hc
  | cons slon stl =>
    cases stl with
    | nil => simp [create_realistic_intermediate_points] at hc
    | cons slat sr =>
      cases e with
      | nil => simp [create_realistic_intermediate_points] at hc
      | cons elon etl =>
        cases etl with
        | nil => simp [create_realistic_intermediate_points] at hc
        | cons elat er =>
          unfold create_realistic_intermediate_points at hc
          rw [List.mem_map] at hc
          obtain ⟨j, hj, rfl⟩ := hc
          dsimp only
          split <;> rfl

/-- Exactly `num_points` intermediate points are synthesized when both
endpoints are well-formed. -/
theorem create_realistic_length (sp : ℚ → ℚ) (d : ℚ → ℚ → ℚ → ℚ → ℚ)
    (s e : List ℚ) (hs : 2 ≤ s.length) (he : 2 ≤ e.length) (pts : List (ℚ × ℚ)) (n : ℕ) :
    (create_realistic_intermediate_points sp d s e pts n).length = n := by
  cases s with
  | nil => exact absurd hs (by simp)
  | cons slon stl =>
    cases stl with
    | nil => exact absurd hs (by simp)
    | cons slat sr =>
      cases e with
      | nil => exact absurd he (by simp)
      | cons elon etl =>
        cases etl with
        | nil => exact absurd he (by simp)
        | cons elat er => simp [create_realistic_intermediate_points]

/-- With no track points to snap to, every synthesized point lies exactly on
the chord through the two endpoints: both coordinates use the same scalar
`t = ratio + (3/10) * sp ratio * (1/10)`, so the "deviation" is along the
chord direction, not lateral. -/
theorem create_realistic_collinear (sp : ℚ → ℚ) (d : ℚ → ℚ → ℚ → ℚ → ℚ)
    (slon slat elon elat : ℚ) (r1 r2 : List ℚ) (n : ℕ) :
    create_realistic_intermediate_points sp d (slon :: slat :: r1) (elon :: elat :: r2) [] n =
      (List.range n).map (fun j =>
        let ratio : ℚ := (j + 1 : ℕ) / ((n : ℚ) + 1)
        let t := ratio + 3 / 10 * sp ratio * (1 / 10)
        [slon + t * (elon - slon), slat + t * (elat - slat)]) := by
  unfold create_realistic_intermediate_points
  refine List.map_congr_left fun j hj => ?_
  simp only [find_nearest_track_point, List.foldl_nil, List.cons.injEq, and_true]
  constructor <;> ring

/-- Body of the sparse-route branch of `fix_train_routes`: rebuild as
start + 6 intermediates + end, then snap. -/
theorem fix_route_sparse_eq (sp : ℚ → ℚ) (d : ℚ → ℚ → ℚ → ℚ → ℚ)
    (pts : List (ℚ × ℚ)) (route : List (List ℚ))
    (h2 : 2 ≤ route.length) (h8 : route.length < 8) :
    fix_route sp d pts route =
      snap_route_to_tracks d pts (route.headD [] ::
        (create_realistic_intermediate_points sp d (route.headD []) (route.getLastD []) pts 6 ++
          [route.getLastD []])) := by
  unfold fix_route
  rw [if_neg (by omega), if_pos h8]

/-- The rebuilt sparse route always snaps to exactly 8 points. -/
theorem fix_route_sparse_length (sp : ℚ → ℚ) (d : ℚ → ℚ → ℚ → ℚ → ℚ)
    (pts : List (ℚ × ℚ)) (route : List (List ℚ))
    (hwf : ∀ c ∈ route, 2 ≤ c.length) (h2 : 2 ≤ route.length) (h8 : route.length < 8) :
    (fix_route sp d pts route).length = 8 := by
  have hne : route ≠ [] := by
    intro he
    rw [he] at h2
    simp at h2
  have hs : 2 ≤ (route.headD []).length := hwf _ (headD_mem_self _ hne _)
  have hl : 2 ≤ (route.getLastD []).length := hwf _ (getLastD_mem_self _ hne _)
  have hwfNew : ∀ c ∈ route.headD [] ::
      (create_realistic_intermediate_points sp d (route.headD []) (route.getLastD []) pts 6 ++
        [route.getLastD []]), 2 ≤ c.length := by
    intro c hc
    rcases List.mem_cons.mp hc with rfl | hc2
    · exact hs
    rcases List.mem_append.mp hc2 with hci | hce
    · rw [create_realistic_wellformed sp d _ _ pts 6 c hci]
    · rw [List.mem_singleton.mp hce]
      exact hl
  rw [fix_route_sparse_eq sp d pts route h2 h8, snap_route_eq_map d pts _ hwfNew,
    List.length_map, List.length_cons, List.length_append,
    create_realistic_length sp d _ _ hs hl pts 6]
  rfl

/-- The per-point railway alignment loop of `create_railway_aligned_routes`
is a pointwise map on routes of two-entry coordinates: same length, same
order, every point replaced by its aligned version. -/
theorem create_railway_aligned_eq_map (railway_lines : List (List (ℚ × ℚ)))
    (route : List (List ℚ)) (hwf : ∀ c ∈ route, c.length = 2) :
    create_railway_aligned_coords railway_lines route =
      route.map (alignRailwayCoord railway_lines) := by
  induction route with
  | nil => rfl
  | cons c rest ih =>
    have hc := hwf c (List.mem_cons_self c rest)
    cases c with
    | nil => exact absurd hc (by simp)
    | cons lon tl =>
      cases tl with
      | nil => exact absurd hc (by simp)
      | cons lat more =>
        cases more with
        | cons x xs =>
          exact absurd hc (by simp only [List.length_cons]; omega)
        | nil =>
          show alignRailwayCoord railway_lines [lon, lat] ::
              create_railway_aligned_coords railway_lines rest = _
          rw [List.map_cons, ih (fun y hy => hwf y (List.mem_cons_of_mem _ hy))]

/-- Explicit form of the fixed sparse route: the snapped original start
point, then the snapped intermediates, then the snapped original end point,
in that order. -/
theorem fix_route_sparse_map (sp : ℚ → ℚ) (d : ℚ → ℚ → ℚ → ℚ → ℚ)
    (pts : List (ℚ × ℚ)) (route : List (List ℚ))
    (hwf : ∀ c ∈ route, 2 ≤ c.length) (h2 : 2 ≤ route.length) (h8 : route.length < 8) :
    fix_route sp d pts route =
      snapTrackCoord d pts (route.headD []) ::
        ((create_realistic_intermediate_points sp d (route.headD []) (route.getLastD []) pts
            6).map (snapTrackCoord d pts) ++ [snapTrackCoord d pts (route.getLastD [])]) := by
  have hne : route ≠ [] := by
    intro he
    rw [he] at h2
    simp at h2
  have hs : 2 ≤ (route.headD []).length := hwf _ (headD_mem_self _ hne _)
  have hl : 2 ≤ (route.getLastD []).length := hwf _ (getLastD_mem_self _ hne _)
  have hwfNew : ∀ c ∈ route.headD [] ::
      (create_realistic_intermediate_points sp d (route.headD []) (route.getLastD []) pts 6 ++
        [route.getLastD []]), 2 ≤ c.length := by
    intro c hc
    rcases List.mem_cons.mp hc with rfl | hc2
    · exact hs
    rcases List.mem_append.mp hc2 with hci | hce
    · rw [create_realistic_wellformed sp d _ _ pts 6 c hci]
    · rw [List.mem_singleton.mp hce]
      exact hl
  rw [fix_route_sparse_eq sp d pts route h2 h8, snap_route_eq_map d pts _ hwfNew,
    List.map_cons, List.map_append]
  rfl

/-- C5 counterexample: the interior point `[100, 100]` of the 3-point route
`[[0,0], [100,100], [7,7]]` does not appear in the fixed route at all — the
sparse-route branch of `fix_train_routes` rebuilds the route from its two
endpoints only, so interior points of sparse routes are discarded rather than
pointwise-replaced or added to. (The sine stand-in `fun _ => 1/2` and the
empty track network make the computation exact; the interior point is dropped
before any snapping could touch it, for every metric and every sine value.) -/
theorem densify_drops_interior_counterexample :
    ([100, 100] : List ℚ) ∈ ([[0, 0], [100, 100], [7, 7]] : List (List ℚ)) ∧
    ([100, 100] : List ℚ) ∉
      fix_route (fun _ => 1 / 2) planarDistSq [] [[0, 0], [100, 100], [7, 7]] := by
  constructor
  · simp
  · norm_num [fix_route, create_realistic_intermediate_points, snap_route_to_tracks,
      snapTrackCoord, find_nearest_track_point, List.range_succ]

/-- C5 amended: align is a pointwise map — both the snapping pass
`snap_route_to_tracks` of `fix_train_routes.py` and the per-point loop of
`create_railway_aligned_routes` of `fix_train_alignment.py` return exactly
as many points as given, in the same order, each point replaced by its
aligned version; the full `fix_train_routes` pipeline behaves the same on
routes of at least 8 points.  Densify (the sparse branch, 2 to 7 points)
returns at least as many points as given (always exactly 8) and keeps the
route's original first and last points in first and last position (each
then pointwise-snapped by the same alignment pass), but it rebuilds the
interior from the endpoints alone, discarding the original interior points,
so sparse routes are NOT merely "replaced pointwise or added to". -/
theorem align_and_densify_shape (sp : ℚ → ℚ) (d : ℚ → ℚ → ℚ → ℚ → ℚ)
    (pts : List (ℚ × ℚ)) (lines : List (List (ℚ × ℚ)))
    (route : List (List ℚ)) (hwf : ∀ c ∈ route, 2 ≤ c.length) :
    snap_route_to_tracks d pts route = route.map (snapTrackCoord d pts) ∧
    ((∀ c ∈ route, c.length = 2) →
      create_railway_aligned_coords lines route = route.map (alignRailwayCoord lines)) ∧
    (8 ≤ route.length → fix_route sp d pts route = route.map (snapTrackCoord d pts)) ∧
    (2 ≤ route.length → route.length < 8 →
      (fix_route sp d pts route).length = 8 ∧
      route.length ≤ (fix_route sp d pts route).length ∧
      (fix_route sp d pts route).headD [] = snapTrackCoord d pts (route.headD []) ∧
      (fix_route sp d pts route).getLastD [] = snapTrackCoord d pts (route.getLastD [])) := by
  refine ⟨snap_route_eq_map d pts route hwf,
    fun h2len => create_railway_aligned_eq_map lines route h2len, ?_, ?_⟩
  · intro h8
    unfold fix_route
    rw [if_neg (by omega), if_neg (by omega)]
    exact snap_route_eq_map d pts route hwf
  · intro h2 h8
    have hlen8 := fix_route_sparse_length sp d pts route hwf h2 h8
    have hmap := fix_route_sparse_map sp d pts route hwf h2 h8
    refine ⟨hlen8, by omega, ?_, ?_⟩
    · rw [hmap]
      rfl
    · rw [hmap, List.getLastD_cons, List.getLastD_concat]

/-- Witness for `align_and_densify_shape`: an 8-point route is snapped
pointwise, a 2-point route is railway-aligned pointwise, and a 2-point
sparse route is expanded to exactly 8 points whose first point is the
snapped original start. -/
theorem align_and_densify_shape_witness :
    fix_route (fun _ => 0) planarDistSq []
        [[0, 0], [1, 1], [2, 2], [3, 3], [4, 4], [5, 5], [6, 6], [7, 7]] =
      ([[0, 0], [1, 1], [2, 2], [3, 3], [4, 4], [5, 5], [6, 6], [7, 7]] :
        List (List ℚ)).map (snapTrackCoord planarDistSq []) ∧
    create_railway_aligned_coords [] [[0, 0], [1, 1]] =
      ([[0, 0], [1, 1]] : List (List ℚ)).map (alignRailwayCoord []) ∧
    (fix_route (fun _ => 0) planarDistSq [] [[0, 0], [1, 1]]).length = 8 ∧
    (fix_route (fun _ => 0) planarDistSq [] [[0, 0], [1, 1]]).headD [] =
      snapTrackCoord planarDistSq [] (([[0, 0], [1, 1]] : List (List ℚ)).headD []) :=
  ⟨(align_and_densify_shape (fun _ => 0) planarDistSq [] []
      [[0, 0], [1, 1], [2, 2], [3, 3], [4, 4], [5, 5], [6, 6], [7, 7]]
      (by decide)).2.2.1 (by decide),
   (align_and_densify_shape (fun _ => 0) planarDistSq [] [] [[0, 0], [1, 1]]
      (by decide)).2.1 (by decide),
   ((align_and_densify_shape (fun _ => 0) planarDistSq [] [] [[0, 0], [1, 1]]
      (by decide)).2.2.2 (by decide) (by decide)).1,
   ((align_and_densify_shape (fun _ => 0) planarDistSq [] [] [[0, 0], [1, 1]]
      (by decide)).2.2.2 (by decide) (by decide)).2.2.1⟩

/-- C8 counterexample: with the nonzero sine stand-in `fun _ => 1`, the six
points synthesized between `[0, 0]` and `[7, 7]` are
`[j + 21/100, j + 21/100]` for `j = 1..6` — every one lies exactly on the
chord `lat = lon` through the endpoints.  The deviation term is applied with
the same scalar to both coordinates (it is parallel to the chord), so there
is no LATERAL deviation and the synthesized points are perfectly collinear,
contrary to the claim's "lateral deviation ... so intermediate points are not
perfectly collinear". -/
theorem densify_no_lateral_deviation_counterexample :
    create_realistic_intermediate_points (fun _ => 1) planarDistSq [0, 0] [7, 7] [] 6 =
      [[121 / 100, 121 / 100], [221 / 100, 221 / 100], [321 / 100, 321 / 100],
       [421 / 100, 421 / 100], [521 / 100, 521 / 100], [621 / 100, 621 / 100]] := by
  norm_num [create_realistic_intermediate_points, find_nearest_track_point, List.range_succ]

/-- C8 amended: for a sparse route (2 to 7 well-formed points),
`fix_train_routes` synthesizes exactly `minPoints - 2 = 6` intermediate
points between the route's first and last point, retains both endpoints
(before the subsequent snapping pass) and returns exactly `minPoints = 8`
points; each synthesized point is the linear interpolation of the endpoints
with an added deviation proportional to `sp ratio` (the model of
`sin(π·ratio)`) applied ALONG the chord — the same scalar
`t = ratio + (3/10)·sp(ratio)·(1/10)` multiplies both coordinate
differences, so the points are exactly collinear with the endpoints, not
laterally displaced. -/
theorem densify_synthesis_shape (sp : ℚ → ℚ) (d : ℚ → ℚ → ℚ → ℚ → ℚ)
    (pts : List (ℚ × ℚ)) (route : List (List ℚ))
    (hwf : ∀ c ∈ route, 2 ≤ c.length) (h2 : 2 ≤ route.length) (h8 : route.length < 8) :
    (create_realistic_intermediate_points sp d (route.headD []) (route.getLastD []) pts 6).length
        = 6 ∧
    fix_route sp d pts route =
      snap_route_to_tracks d pts (route.headD [] ::
        (create_realistic_intermediate_points sp d (route.headD []) (route.getLastD []) pts 6 ++
          [route.getLastD []])) ∧
    (fix_route sp d pts route).length = 8 ∧
    (∀ (slon slat elon elat : ℚ) (r1 r2 : List ℚ) (n : ℕ),
      create_realistic_intermediate_points sp d (slon :: slat :: r1) (elon :: elat :: r2) [] n =
        (List.range n).map (fun j =>
          let ratio : ℚ := (j + 1 : ℕ) / ((n : ℚ) + 1)
          let t := ratio + 3 / 10 * sp ratio * (1 / 10)
          [slon + t * (elon - slon), slat + t * (elat - slat)])) := by
  have hne : route ≠ [] := by
    intro he
    rw [he] at h2
    simp at h2
  refine ⟨?_, fix_route_sparse_eq sp d pts route h2 h8,
    fix_route_sparse_length sp d pts route hwf h2 h8,
    fun slon slat elon elat r1 r2 n => create_realistic_collinear sp d slon slat elon elat r1 r2 n⟩
  exact create_realistic_length sp d _ _ (hwf _ (headD_mem_self _ hne _))
    (hwf _ (getLastD_mem_self _ hne _)) pts 6

/-- Witness for `densify_synthesis_shape` at a concrete 3-point route. -/
theorem densify_synthesis_shape_witness :
    (create_realistic_intermediate_points (fun _ => 1) planarDistSq
        (([[0, 0], [3, 4], [7, 7]] : List (List ℚ)).headD [])
        (([[0, 0], [3, 4], [7, 7]] : List (List ℚ)).getLastD []) [] 6).length = 6 ∧
    (fix_route (fun _ => 1) planarDistSq [] [[0, 0], [3, 4], [7, 7]]).length = 8 :=
  ⟨(densify_synthesis_shape (fun _ => 1) planarDistSq [] [[0, 0], [3, 4], [7, 7]]
      (by decide) (by decide) (by decide)).1,
   (densify_synthesis_shape (fun _ => 1) planarDistSq [] [[0, 0], [3, 4], [7, 7]]
      (by decide) (by decide) (by decide)).2.2.1⟩

/-! ## Gap backfilling

Embedding of `Mapultra_optimize_trains.py::ensure_24x7_coverage`
(lines 121-184). The histogram part reuses `addInstanceHours`; the gap pass
is the literal loop: compute `gap_hours` ascending, and if any exist, walk
the first 10 trains, give the FIRST one whose `priority_score` exceeds 140
extra schedules at the first TWO gap hours (duration taken from its first
schedule, with the strict `total_seconds() < 0` day-wrap test), and stop. -/

/-- A train entry as `ensure_24x7_coverage` sees it: its expanded schedules
and its priority score. -/
structure TrainData where
  schedules : List Schedule
  priority_score : ℕ
deriving DecidableEq

/-- The nested marking loop of lines 130-148: one fold over trains, one over
each train's schedules. -/
def coverageOf (trains_with_schedules : List TrainData) : List ℕ :=
  trains_with_schedules.foldl
    (fun hist t => t.schedules.foldl
      (fun hh s => addInstanceHours hh (scheduleHours s).1 (scheduleHours s).2) hist)
    (List.replicate 24 0)

/-- `min_coverage_needed = 15` (line 151). -/
def min_coverage_needed : ℕ := 15

/-- `gap_hours = [h for h in range(24) if hourly_coverage[h] < min_coverage_needed]`
(line 152); ascending because `range(24)` is. -/
def gap_hours_of (hist : List ℕ) : List ℕ :=
  (List.range 24).filter (fun h => decide (hist.getD h 0 < min_coverage_needed))

/-- Duration the backfill branch recomputes from the train's first schedule
(lines 166-170): a STRICT negative test, so a zero-length first schedule
yields duration 0 here, unlike the expansion functions. -/
def backfillDuration (s0 : Schedule) : ℕ :=
  if s0.arrival < s0.departure then s0.arrival + 86400 - s0.departure
  else s0.arrival - s0.departure

/-- Lines 163-181: append one schedule at each of the first two gap hours
(gap hours are always below 24, so `gap_hour * 3600` needs no wrap), ids
continuing after the existing ones.  A train with no schedules is returned
unchanged (the source would raise IndexError on `schedules[0]`; the branch is
only reached for scheduled trains). -/
def addGapSchedules (gaps : List ℕ) (t : TrainData) : TrainData :=
  match t.schedules with
  | [] => t
  | s0 :: _ =>
    let dur := backfillDuration s0
    let additional := (gaps.take 2).enum.map (fun ig =>
      { departure := ig.2 * 3600
        arrival := (ig.2 * 3600 + dur) % 86400
        schedule_id := t.schedules.length + ig.1 + 1 : Schedule })
    { t with schedules := t.schedules ++ additional }

/-- The `for train_data in trains_with_schedules[:10]: if priority > 140: ...;
break` loop: fuel 10, extend the first qualifying train, leave the rest. -/
def backfillPass (gaps : List ℕ) : ℕ → List TrainData → List TrainData
  | _, [] => []
  | 0, ts => ts
  | n + 1, t :: ts =>
    if 140 < t.priority_score then addGapSchedules gaps t :: ts
    else t :: backfillPass gaps n ts

/-- The whole of `ensure_24x7_coverage`. -/
def ensure_24x7_coverage (trains_with_schedules : List TrainData) : List TrainData :=
  let hourly := coverageOf trains_with_schedules
  let gaps := gap_hours_of hourly
  if gaps.isEmpty then trains_with_schedules
  else backfillPass gaps 10 trains_with_schedules

/-- Sum of marking contributions of one train to bucket `k`. -/
def perTrainMark (t : TrainData) (k : ℕ) : ℕ :=
  ((t.schedules.map scheduleHours).map (fun i => markCount i.1 i.2 k)).sum

theorem length_foldl_addInstance (l : List (ℕ × ℕ)) (hist : List ℕ) :
    (l.foldl (fun h i => addInstanceHours h i.1 i.2) hist).length = hist.length := by
  induction l generalizing hist with
  | nil => rfl
  | cons x xs ih =>
    simp only [List.foldl_cons]
    rw [ih, length_addInstanceHours]

theorem getD_coverageOf_aux (ts : List TrainData) (hist : List ℕ) (k : ℕ)
    (hlen : hist.length = 24) (hk : k < 24) :
    (ts.foldl (fun h t => t.schedules.foldl
        (fun hh s => addInstanceHours hh (scheduleHours s).1 (scheduleHours s).2) h)
      hist).getD k 0 =
      hist.getD k 0 + (ts.map (fun t => perTrainMark t k)).sum := by
  induction ts generalizing hist with
  | nil => simp
  | cons t ts ih =>
    simp only [List.foldl_cons, List.map_cons, List.sum_cons]
    have hinner : t.schedules.foldl
        (fun hh s => addInstanceHours hh (scheduleHours s).1 (scheduleHours s).2) hist =
        (t.schedules.map scheduleHours).foldl (fun hh i => addInstanceHours hh i.1 i.2) hist := by
      rw [List.foldl_map]
    have hlen2 : (t.schedules.foldl
        (fun hh s => addInstanceHours hh (scheduleHours s).1 (scheduleHours s).2) hist).length
        = 24 := by
      rw [hinner, length_foldl_addInstance]
      exact hlen
    rw [ih _ hlen2, hinner, getD_hourlyCoverage_aux _ _ _ hlen hk]
    unfold perTrainMark
    omega

/-- Bucket `k` of the nested coverage loop is the sum of the per-train
contributions. -/
theorem getD_coverageOf (ts : List TrainData) (k : ℕ) (hk : k < 24) :
    (coverageOf ts).getD k 0 = (ts.map (fun t => perTrainMark t k)).sum := by
  unfold coverageOf
  rw [getD_coverageOf_aux _ _ _ (by simp) hk]
  have : (List.replicate 24 (0 : ℕ)).getD k 0 = 0 := by
    rw [List.getD_eq_getElem _ _ (by simpa using hk)]
    exact List.getElem_replicate _ (h := by simpa using hk)
  rw [this, Nat.zero_add]

theorem length_coverageOf (ts : List TrainData) : (coverageOf ts).length = 24 := by
  unfold coverageOf
  generalize hbase : List.replicate 24 (0 : ℕ) = base
  have hlen : base.length = 24 := by rw [← hbase]; simp
  clear hbase
  induction ts generalizing base with
  | nil => simpa using hlen
  | cons t ts ih =>
    simp only [List.foldl_cons]
    refine ih _ ?_
    rw [show (t.schedules.foldl
        (fun hh s => addInstanceHours hh (scheduleHours s).1 (scheduleHours s).2) base) =
        (t.schedules.map scheduleHours).foldl (fun hh i => addInstanceHours hh i.1 i.2) base
      from by rw [List.foldl_map], length_foldl_addInstance]
    exact hlen

/-- `addGapSchedules` only appends schedules, so per-train contributions do
not decrease. -/
theorem addGapSchedules_extends (gaps : List ℕ) (t : TrainData) (k : ℕ) :
    perTrainMark t k ≤ perTrainMark (addGapSchedules gaps t) k ∧
    ∃ extra, (addGapSchedules gaps t).schedules = t.schedules ++ extra := by
  obtain ⟨scheds, prio⟩ := t
  cases scheds with
  | nil => exact ⟨Nat.le_refl _, [], by simp [addGapSchedules]⟩
  | cons s0 rest =>
    refine ⟨?_, ?_⟩
    · simp only [addGapSchedules, perTrainMark, List.map_append, List.sum_append]
      exact Nat.le_add_right _ _
    · exact ⟨_, rfl⟩

theorem backfillPass_shape (gaps : List ℕ) (k : ℕ) (dflt : TrainData) :
    ∀ (n : ℕ) (ts : List TrainData),
      (ts.map (fun t => perTrainMark t k)).sum ≤
        ((backfillPass gaps n ts).map (fun t => perTrainMark t k)).sum ∧
      (backfillPass gaps n ts).length = ts.length ∧
      (∀ i, ∃ extra, ((backfillPass gaps n ts).getD i dflt).schedules =
        (ts.getD i dflt).schedules ++ extra) := by
  intro n
  induction n with
  | zero =>
    intro ts
    cases ts with
    | nil => exact ⟨Nat.le_refl _, rfl, fun i => ⟨[], by simp [backfillPass]⟩⟩
    | cons t rest => exact ⟨Nat.le_refl _, rfl, fun i => ⟨[], by simp [backfillPass]⟩⟩
  | succ n ih =>
    intro ts
    cases ts with
    | nil => exact ⟨Nat.le_refl _, rfl, fun i => ⟨[], by simp [backfillPass]⟩⟩
    | cons t rest =>
      by_cases hq : 140 < t.priority_score
      · have hstep : backfillPass gaps (n + 1) (t :: rest) = addGapSchedules gaps t :: rest := by
          simp [backfillPass, hq]
        obtain ⟨hle, extra, hext⟩ := addGapSchedules_extends gaps t k
        refine ⟨?_, ?_, ?_⟩
        · rw [hstep]
          simp only [List.map_cons, List.sum_cons]
          omega
        · rw [hstep]; rfl
        · intro i
          rw [hstep]
          cases i with
          | zero => exact ⟨extra, hext⟩
          | succ j => exact ⟨[], by simp⟩
      · have hstep : backfillPass gaps (n + 1) (t :: rest) =
            t :: backfillPass gaps n rest := by
          simp [backfillPass, hq]
        obtain ⟨hle, hlen, hget⟩ := ih rest
        refine ⟨?_, ?_, ?_⟩
        · rw [hstep]
          simp only [List.map_cons, List.sum_cons]
          omega
        · rw [hstep]
          simp [hlen]
        · intro i
          rw [hstep]
          cases i with
          | zero => exact ⟨[], by simp⟩
          | succ j =>
            obtain ⟨extra, hex⟩ := hget j
            exact ⟨extra, by simpa using hex⟩

/-- C6 counterexample: one train (priority 150) running 06:00 -> 07:00.
Every hour is a gap (threshold 15).  The backfill pass appends exactly two
schedules (at gap hours 0 and 1) to this train and stops, so hour 5 — a
previously-gapped hour — still has bucket count 0 after backfilling, far
below the threshold; and the function's return value carries no record of
the unresolved gap (its only reporting is a console print of the gap list
made BEFORE the backfill attempt). -/
theorem backfill_gap_unmet_counterexample :
    (coverageOf [⟨[⟨21600, 25200, 1⟩], 150⟩]).getD 5 0 < min_coverage_needed ∧
    (coverageOf (ensure_24x7_coverage [⟨[⟨21600, 25200, 1⟩], 150⟩])).getD 5 0 = 0 := by
  decide

/-- C6 amended: the gap list is computed in ascending hour order; backfilling
never decreases any bucket's count; the pass returns the same trains in the
same order, each with its original schedule list extended (by at most two new
schedules, on at most one train).  It does NOT raise every gapped hour to the
threshold, and the returned value carries no unresolved-gap report. -/
theorem backfill_never_decreases (ts : List TrainData) (k : ℕ) (dflt : TrainData) :
    (coverageOf ts).getD k 0 ≤ (coverageOf (ensure_24x7_coverage ts)).getD k 0 ∧
    (ensure_24x7_coverage ts).length = ts.length ∧
    (∀ i, ∃ extra, ((ensure_24x7_coverage ts).getD i dflt).schedules =
      (ts.getD i dflt).schedules ++ extra) ∧
    (gap_hours_of (coverageOf ts)).Sorted (· < ·) := by
  have hrw : ensure_24x7_coverage ts =
      if (gap_hours_of (coverageOf ts)).isEmpty then ts
      else backfillPass (gap_hours_of (coverageOf ts)) 10 ts := rfl
  refine ⟨?_, ?_, ?_, List.Pairwise.filter _ (List.sorted_lt_range 24)⟩
  · rw [hrw]
    split
    · exact Nat.le_refl _
    · by_cases hk : k < 24
      · rw [getD_coverageOf _ _ hk, getD_coverageOf _ _ hk]
        exact (backfillPass_shape _ k dflt 10 ts).1
      · rw [List.getD_eq_default _ _ (by rw [length_coverageOf]; omega),
          List.getD_eq_default _ _ (by rw [length_coverageOf]; omega)]
  · rw [hrw]
    split
    · rfl
    · exact (backfillPass_shape _ k dflt 10 ts).2.1
  · rw [hrw]
    split
    · exact fun i => ⟨[], by simp⟩
    · exact (backfillPass_shape _ k dflt 10 ts).2.2

/-! ## Coordinate reduction

Embedding of the `coords[::step]` reductions:
`Mapultra_optimize_trains.py` lines 252-256 (`> 15`, `step = len // 12`),
`Mapcreate_minimal_trains.py` lines 198-202 (`> 10`, `step = len // 8`),
`optimize_trains.py` lines 169-174 (`> 30`, `step = len // 25`).
Python's `l[::step]` for `step >= 1` keeps exactly the elements whose index
is a multiple of `step`. -/

/-- Python `l[::step]` (for positive step): elements at indices `0, step,
2*step, ...`. -/
def everyNth {α : Type} (coords : List α) (step : ℕ) : List α :=
  (coords.enum.filter (fun p => p.1 % step == 0)).map Prod.snd

/-- The ultra optimizer's coordinate reduction. -/
def reduce_coords_ultra {α : Type} (route_coords : List α) : List α :=
  if 15 < route_coords.length then everyNth route_coords (route_coords.length / 12)
  else route_coords

/-- The minimal optimizer's coordinate reduction. -/
def reduce_coords_minimal {α : Type} (route_coords : List α) : List α :=
  if 10 < route_coords.length then everyNth route_coords (route_coords.length / 8)
  else route_coords

/-- The 150-route optimizer's coordinate reduction. -/
def reduce_coords_optimized {α : Type} (route_coords : List α) : List α :=
  if 30 < route_coords.length then everyNth route_coords (route_coords.length / 25)
  else route_coords

/-- A stride slice is an order-preserving subsequence of the original list. -/
theorem everyNth_sublist {α : Type} (l : List α) (step : ℕ) : (everyNth l step).Sublist l := by
  have h1 : ((l.enum.filter (fun p => p.1 % step == 0)).map Prod.snd).Sublist
      (l.enum.map Prod.snd) := (List.filter_sublist _).map Prod.snd
  simpa [everyNth, List.enum_map_snd] using h1

/-- A stride slice always keeps the first element. -/
theorem everyNth_head? {α : Type} (l : List α) (step : ℕ) :
    (everyNth l step).head? = l.head? := by
  cases l with
  | nil => rfl
  | cons a t =>
    simp [everyNth, List.enum_cons, List.filter_cons, Nat.zero_mod]

/-- C10: whenever a route's coordinate list exceeds the reduction cap (15 for
the ultra optimizer, 10 for the minimal one, 30 for the 150-route one), the
published coordinates are the stride slice `coords[::step]` with
`step = len(coords) // k`: an order-preserving subsequence of the original
list that always begins with the first coordinate; and (as the concrete
24- and 60-point routes show) the route's final coordinate is in general
omitted. -/
theorem coordinate_reduction_stride {α : Type} (coords : List α) :
    (15 < coords.length →
      reduce_coords_ultra coords = everyNth coords (coords.length / 12) ∧
      (reduce_coords_ultra coords).Sublist coords ∧
      (reduce_coords_ultra coords).head? = coords.head?) ∧
    (10 < coords.length →
      reduce_coords_minimal coords = everyNth coords (coords.length / 8) ∧
      (reduce_coords_minimal coords).Sublist coords ∧
      (reduce_coords_minimal coords).head? = coords.head?) ∧
    (30 < coords.length →
      reduce_coords_optimized coords = everyNth coords (coords.length / 25) ∧
      (reduce_coords_optimized coords).Sublist coords ∧
      (reduce_coords_optimized coords).head? = coords.head?) ∧
    reduce_coords_ultra (List.range 24) = [0, 2, 4, 6, 8, 10, 12, 14, 16, 18, 20, 22] ∧
    23 ∉ reduce_coords_ultra (List.range 24) ∧
    23 ∉ reduce_coords_minimal (List.range 24) ∧
    59 ∉ reduce_coords_optimized (List.range 60) := by
  refine ⟨?_, ?_, ?_, by decide, by decide, by decide, by decide⟩
  · intro h
    unfold reduce_coords_ultra
    rw [if_pos h]
    exact ⟨rfl, everyNth_sublist _ _, everyNth_head? _ _⟩
  · intro h
    unfold reduce_coords_minimal
    rw [if_pos h]
    exact ⟨rfl, everyNth_sublist _ _, everyNth_head? _ _⟩
  · intro h
    unfold reduce_coords_optimized
    rw [if_pos h]
    exact ⟨rfl, everyNth_sublist _ _, everyNth_head? _ _⟩

/-- Witness for `coordinate_reduction_stride` at a 60-point route, which
exceeds every cap. -/
theorem coordinate_reduction_stride_witness :
    (reduce_coords_ultra (List.range 60) = everyNth (List.range 60) ((List.range 60).length / 12) ∧
      (reduce_coords_ultra (List.range 60)).Sublist (List.range 60) ∧
      (reduce_coords_ultra (List.range 60)).head? = (List.range 60).head?) ∧
    (reduce_coords_minimal (List.range 60) = everyNth (List.range 60) ((List.range 60).length / 8) ∧
      (reduce_coords_minimal (List.range 60)).Sublist (List.range 60) ∧
      (reduce_coords_minimal (List.range 60)).head? = (List.range 60).head?) ∧
    (reduce_coords_optimized (List.range 60) =
        everyNth (List.range 60) ((List.range 60).length / 25) ∧
      (reduce_coords_optimized (List.range 60)).Sublist (List.range 60) ∧
      (reduce_coords_optimized (List.range 60)).head? = (List.range 60).head?) :=
  ⟨(coordinate_reduction_stride (List.range 60)).1 (by decide),
   (coordinate_reduction_stride (List.range 60)).2.1 (by decide),
   (coordinate_reduction_stride (List.range 60)).2.2.1 (by decide)⟩
